import Mathlib

/-!
# Verification of the cv-tailor selection / deduplication / budget subsystem

Shallow embedding of the deduplication engine (`backend/services/deduplicator.py`),
the CV-upload pipeline's dedup calls (`backend/services/cv_service.py`) and the
selection engine (`backend/agents/draft_selector.py`), together with theorems
settling the spec claims about them.

Database rows are modelled as explicit lists of records; SQL queries become pure
functions over those lists.  Embedding vectors are abstracted to handles
(`Nat`) together with a similarity function `Nat → ℚ` giving the cosine
similarity that the database would compute for each stored embedding against
the (fixed) query embedding of a call.  `uuid.uuid4()` draws are modelled by an
explicit `freshId` argument.  Python `TypeError` on arity mismatch is modelled
by an explicit `pythonCall` applicator carrying parameter and argument counts.
-/

attribute [local semireducible] Rat.add Rat.mul Rat.inv Rat.sub Rat.ofScientific

namespace CvTailor

/-! ## Settings (`backend/config.py`) -/

/-- `Settings.near_duplicate_threshold` (default 0.92). -/
def nearDuplicateThreshold : ℚ := 92/100

/-- `Settings.variant_threshold` (default 0.75). -/
def variantThreshold : ℚ := 3/4

/-- `DOMAIN_BOOST` in `draft_selector.select_experiences` (0.08). -/
def domainBoostValue : ℚ := 8/100

/-- `MAX_SKILLS` in `draft_selector.select_experiences` (25). -/
def maxSkills : Nat := 25

/-! ## Generic helpers -/

/-- Python `str.lower()` (ASCII), as a structurally-reducible char map. -/
def strLower (s : String) : String := String.mk (s.data.map Char.toLower)

/-- Python `str.strip()`: drop whitespace from both ends. -/
def strTrim (s : String) : String :=
  String.mk (((s.data.dropWhile Char.isWhitespace).reverse.dropWhile Char.isWhitespace).reverse)

/-- Python slicing `s[:n]` by characters. -/
def strTake (s : String) (n : Nat) : String := String.mk (s.data.take n)

/-- Python substring test `needle in hay`, character-exact. -/
def strContains (hay needle : String) : Bool :=
  let h := hay.data
  let n := needle.data
  (List.range (h.length + 1)).any (fun i => (h.drop i).take n.length == n)

/-- Accumulator pass for `str.split()`: split on whitespace runs, dropping
empty pieces. -/
def wsTokensAux : List Char → List Char → List String
  | [], acc => if acc.isEmpty then [] else [String.mk acc.reverse]
  | c :: cs, acc =>
    if c.isWhitespace then
      if acc.isEmpty then wsTokensAux cs [] else String.mk acc.reverse :: wsTokensAux cs []
    else wsTokensAux cs (c :: acc)

/-- Python `str.split()` with no separator: whitespace tokens. -/
def wsSplit (s : String) : List String := wsTokensAux s.data []

/-- Insert into a list sorted by descending key, keeping earlier elements first
on ties (stable). -/
def insertDescBy (key : α → ℚ) (x : α) : List α → List α
  | [] => [x]
  | y :: ys => if key y ≤ key x then x :: y :: ys else y :: insertDescBy key x ys

/-- Stable sort by descending key; models `ORDER BY ... DESC` / `list.sort(key, reverse=True)`. -/
def sortDescBy (key : α → ℚ) : List α → List α
  | [] => []
  | x :: xs => insertDescBy key x (sortDescBy key xs)

/-! ## Deduplication engine (`backend/services/deduplicator.py`) -/

/-- A row of one of the entity tables (`work_experiences` / `projects` /
`activities`), restricted to the fields the dedup engine touches.
`hasSimilarityField` records whether the mapped class has a
`similarity_score` column (`WorkExperience` and `Activity` do, `Project`
does not), for the `hasattr` test in `_classify`. -/
structure EntityRec where
  id : Nat
  userId : Nat
  variantGroupId : Option Nat
  isPrimaryVariant : Bool
  similarityScore : Option ℚ
  hasSimilarityField : Bool
  embedding : Option Nat
deriving DecidableEq

/-- `DeduplicationResult` dataclass. -/
structure DeduplicationResult where
  action : String
  existingId : Option Nat
  similarityScore : ℚ
  variantGroupId : Nat
deriving DecidableEq

/-- `_find_similar`: rows of the table whose embedding is non-NULL and whose
cosine similarity to the query embedding is strictly above `threshold`,
ordered by similarity descending, limited to 5; each result is
`(id, variant_group_id, similarity)`.  The SQL has no `user_id` predicate:
the full table is searched. -/
def findSimilar (pool : List EntityRec) (sim : Nat → ℚ) (threshold : ℚ) :
    List (Nat × Option Nat × ℚ) :=
  let rows := pool.filterMap (fun r =>
    match r.embedding with
    | none => none
    | some e => if threshold < sim e then some (r.id, r.variantGroupId, sim e) else none)
  (sortDescBy (fun t => t.2.2) rows).take 5

/-- `_classify`: classify an item as new / variant / near_duplicate from the
similarity results, mutating the item's dedup fields. -/
def classify (similar : List (Nat × Option Nat × ℚ)) (item : EntityRec)
    (nearThreshold : ℚ) (freshId : Nat) : EntityRec × DeduplicationResult :=
  match similar with
  | [] =>
    let groupId := item.variantGroupId.getD freshId
    ({ item with variantGroupId := some groupId, isPrimaryVariant := true },
     { action := "new", existingId := none, similarityScore := 0, variantGroupId := groupId })
  | (bestMatchId, bestGroupId, bestScore) :: _ =>
    let groupId := bestGroupId.getD freshId
    let item1 := { item with variantGroupId := some groupId, isPrimaryVariant := false }
    let item2 := if item.hasSimilarityField
      then { item1 with similarityScore := some bestScore } else item1
    let action := if nearThreshold < bestScore then "near_duplicate" else "variant"
    (item2, { action := action, existingId := some bestMatchId,
              similarityScore := bestScore, variantGroupId := groupId })

/-- The similarity lookup performed by `deduplicate_experience` /
`deduplicate_project` / `deduplicate_activity`: `_find_similar` at the
configured variant threshold over the entity's own table. -/
def dedupSimilarLookup (pool : List EntityRec) (sim : Nat → ℚ) :
    List (Nat × Option Nat × ℚ) :=
  findSimilar pool sim variantThreshold

/-- One dedup classification run as performed by the `deduplicate_*`
functions: look up similar rows at the variant threshold, then classify at
the near-duplicate threshold. -/
def deduplicateStep (pool : List EntityRec) (sim : Nat → ℚ) (item : EntityRec)
    (freshId : Nat) : EntityRec × DeduplicationResult :=
  classify (findSimilar pool sim variantThreshold) item nearDuplicateThreshold freshId

/-! ## Upload pipeline dedup calls (`backend/services/cv_service.py`) -/

/-- Python call semantics restricted to arity: calling a function defined with
`paramCount` parameters with `argCount` positional arguments raises
`TypeError` unless the counts agree. -/
def pythonCall (paramCount argCount : Nat) (f : α → β) (a : α) : Except String β :=
  if argCount = paramCount then Except.ok (f a) else Except.error "TypeError"

/-- `deduplicate_experience(db, experience)` is defined with 2 parameters. -/
def deduplicateExperienceParamCount : Nat := 2

/-- `deduplicate_project(db, project)` is defined with 2 parameters. -/
def deduplicateProjectParamCount : Nat := 2

/-- `deduplicate_activity(db, activity)` is defined with 2 parameters. -/
def deduplicateActivityParamCount : Nat := 2

/-- The upload pipeline invokes each `deduplicate_*` with 3 positional
arguments: `(db, entity, user_id)`. -/
def pipelineDedupArgCount : Nat := 3

/-- One pipeline dedup try/except block from `parse_and_store_cv`: call the
dedup function; on any exception assign a fresh singleton variant group and
mark primary (fail open).  Returns the entity and, when the call succeeded,
its `DeduplicationResult` (used by the caller to report variants /
near-duplicates). -/
def ingestDedupTry (paramCount : Nat)
    (normal : EntityRec → EntityRec × DeduplicationResult)
    (freshId : Nat) (e : EntityRec) : EntityRec × Option DeduplicationResult :=
  match pythonCall paramCount pipelineDedupArgCount normal e with
  | Except.ok (e1, r) => (e1, some r)
  | Except.error _ =>
    ({ e with variantGroupId := some freshId, isPrimaryVariant := true }, none)

/-- The experiences dedup block (`cv_service.py`, store work experiences). -/
def ingestExperienceDedup (normal : EntityRec → EntityRec × DeduplicationResult)
    (freshId : Nat) (e : EntityRec) : EntityRec × Option DeduplicationResult :=
  ingestDedupTry deduplicateExperienceParamCount normal freshId e

/-- The projects dedup block (`cv_service.py`, store projects). -/
def ingestProjectDedup (normal : EntityRec → EntityRec × DeduplicationResult)
    (freshId : Nat) (e : EntityRec) : EntityRec × Option DeduplicationResult :=
  ingestDedupTry deduplicateProjectParamCount normal freshId e

/-- The activities dedup block (`cv_service.py`, store activities). -/
def ingestActivityDedup (normal : EntityRec → EntityRec × DeduplicationResult)
    (freshId : Nat) (e : EntityRec) : EntityRec × Option DeduplicationResult :=
  ingestDedupTry deduplicateActivityParamCount normal freshId e

/-! ## Selection engine (`backend/agents/draft_selector.py`) -/

/-- The fixed keyword tuple tested against the JD domain string when building
`domain_keywords` for the boost. -/
def fixedDomainKws : List String :=
  ["tech", "software", "engineer", "data", "quant", "trading", "fintech",
   "consult", "strategy", "finance", "bank", "investment"]

/-- `domain_keywords`: the lowercased JD domain itself (when non-empty) plus
every fixed keyword occurring in it as a substring. -/
def domainKeywordsOf (rawDomain : String) : List String :=
  let domain := strLower rawDomain
  (if domain != "" then [domain] else []) ++
    fixedDomainKws.filter (fun kw => strContains domain kw)

/-- The domain-tag boost applied to one fetched experience row: add
`DOMAIN_BOOST` when the row's domain tags (lowercased) intersect the JD
domain keyword set (exact set intersection), both sets being non-empty. -/
def domainBoostRow (domainKws : List String) (tags : Option (List String))
    (sim : ℚ) : ℚ :=
  match tags with
  | none => sim
  | some ts =>
    if !ts.isEmpty && !domainKws.isEmpty &&
        (ts.map strLower).any (fun t => domainKws.contains t)
    then sim + domainBoostValue
    else sim

/-- A row of the experiences similarity query:
`(id, company, role_title, variant_group_id, domain_tags, similarity)`. -/
structure ExpRow where
  id : Nat
  company : Option String
  roleTitle : Option String
  variantGroupId : Option Nat
  domainTags : Option (List String)
  similarity : ℚ
deriving DecidableEq

/-- A scored row after the boost: `(exp_id, company, role_title, variant_group_id, boosted)`. -/
structure ScoredRow where
  id : Nat
  company : Option String
  roleTitle : Option String
  variantGroupId : Option Nat
  score : ℚ
deriving DecidableEq

/-- Apply the domain boost to every fetched row (`scored_rows` construction). -/
def scoreRows (domainKws : List String) (rows : List ExpRow) : List ScoredRow :=
  rows.map (fun r =>
    ⟨r.id, r.company, r.roleTitle, r.variantGroupId,
     domainBoostRow domainKws r.domainTags r.similarity⟩)

/-- `group_key`: the variant group id when truthy, else the row's own id. -/
inductive GroupKey where
  | group (g : Nat)
  | solo (id : Nat)
deriving DecidableEq

def groupKeyOf (variantGroupId : Option Nat) (id : Nat) : GroupKey :=
  match variantGroupId with
  | some g => GroupKey.group g
  | none => GroupKey.solo id

/-- Association-list lookup (dict read). -/
def getAssoc (k : GroupKey) : List (GroupKey × String) → Option String
  | [] => none
  | (k1, v1) :: rest => if k1 = k then some v1 else getAssoc k rest

/-- Association-list update (dict write). -/
def setAssoc (k : GroupKey) (v : String) : List (GroupKey × String) → List (GroupKey × String)
  | [] => [(k, v)]
  | (k1, v1) :: rest => if k1 = k then (k1, v) :: rest else (k1, v1) :: setAssoc k v rest

/-- `_company_tokens`: lowercase whitespace tokens of a company name. -/
def companyTokens (company : String) : List String :=
  if company == "" then []
  else wsSplit (strTrim (strLower company))

/-- The fuzzy company+role duplicate test against the `seen_company_roles`
set: companies share tokens with one token set a subset of the other, and
role key equal or a substring either way. -/
def fuzzyDup (toks : List String) (rolePfx : String)
    (seen : List (List String × String)) : Bool :=
  seen.any (fun sp =>
    (toks.any (fun t => sp.1.contains t)) &&
    (toks.all (fun t => sp.1.contains t) || sp.1.all (fun t => toks.contains t)) &&
    (sp.2 == rolePfx || strContains sp.2 rolePfx || strContains rolePfx sp.2))

/-- `round(x, 3)`: round to the nearest multiple of 1/1000. -/
def roundTo3 (q : ℚ) : ℚ := (round (1000 * q) : ℤ) / 1000

/-- One entry of `selected` (the `SelectedExperience` model, reason string
omitted — no claim concerns it). -/
structure SelectedExp where
  id : Nat
  relevanceScore : ℚ
deriving DecidableEq

/-- `max_work_exp`: 6 for a 2-page budget, else 4. -/
def maxWorkExp (maxPages : Nat) : Nat := if 2 ≤ maxPages then 6 else 4

/-- The experience dedup/selection loop over the boosted, re-sorted rows. -/
def expLoop (maxPages : Nat) :
    List ScoredRow → List (GroupKey × String) → List (List String × String) →
    List SelectedExp → List SelectedExp
  | [], _, _, selected => selected
  | r :: rest, seenGroups, seenCompanyRoles, selected =>
    let gk := groupKeyOf r.variantGroupId r.id
    let companyStr := r.company.getD ""
    let skipGroup :=
      match getAssoc gk seenGroups with
      | some prev => prev != "" && companyStr != "" && strLower prev == strLower companyStr
      | none => false
    if skipGroup then expLoop maxPages rest seenGroups seenCompanyRoles selected
    else
      let seenGroups1 := setAssoc gk companyStr seenGroups
      let companyLower := strTrim (strLower companyStr)
      let toks := companyTokens companyStr
      let roleLower := strTrim (strLower (r.roleTitle.getD ""))
      let rolePfx := if roleLower != "" then strTake roleLower 20 else ""
      let skipThis := companyLower != "" && rolePfx != "" &&
        fuzzyDup toks rolePfx seenCompanyRoles
      if skipThis then expLoop maxPages rest seenGroups1 seenCompanyRoles selected
      else
        let seenCR1 := if companyLower != "" && rolePfx != ""
          then (toks, rolePfx) :: seenCompanyRoles else seenCompanyRoles
        let selected1 := selected ++ [⟨r.id, roundTo3 r.score⟩]
        if maxWorkExp maxPages ≤ selected1.length then selected1
        else expLoop maxPages rest seenGroups1 seenCR1 selected1

/-- The experience-ranking phase of `select_experiences`: boost the fetched
rows by domain tags, re-sort by boosted score descending, then run the
dedup/selection loop. -/
def selectExperiencesPhase (rawDomain : String) (rows : List ExpRow)
    (maxPages : Nat) : List SelectedExp :=
  let kws := domainKeywordsOf rawDomain
  let scored := sortDescBy (fun s => s.score) (scoreRows kws rows)
  expLoop maxPages scored [] [] []

/-! ### Project and activity selection, with query failure modelling

The similarity queries are external calls that can raise; a raised exception
is modelled by `Except.error`.  A query that merely returns no rows is
`Except.ok []`.  The row lists stand for the rows the database returned
(already ordered and limited by the SQL). -/

/-- A row of the projects similarity query: `(id, name, variant_group_id)`. -/
structure ProjRow where
  id : Nat
  name : Option String
  variantGroupId : Option Nat
deriving DecidableEq

/-- A row of the activities similarity query:
`(id, organization, role_title, variant_group_id)`. -/
structure ActRow where
  id : Nat
  organization : Option String
  roleTitle : Option String
  variantGroupId : Option Nat
deriving DecidableEq

/-- The project dedup loop: skip rows whose group key or lowercase name was
already selected, stop at the limit. -/
def projLoop (limit : Nat) :
    List ProjRow → List GroupKey → List String → List Nat → List Nat
  | [], _, _, sel => sel
  | r :: rest, seenGroups, seenNames, sel =>
    let gk := groupKeyOf r.variantGroupId r.id
    if seenGroups.contains gk then projLoop limit rest seenGroups seenNames sel
    else
      let nameLower := strLower (strTrim (r.name.getD ""))
      if nameLower != "" && seenNames.contains nameLower then
        projLoop limit rest seenGroups seenNames sel
      else
        let seenGroups1 := gk :: seenGroups
        let seenNames1 := if nameLower != "" then nameLower :: seenNames else seenNames
        let sel1 := sel ++ [r.id]
        if limit ≤ sel1.length then sel1
        else projLoop limit rest seenGroups1 seenNames1 sel1

/-- The fallback loop over an unranked project fetch (dedup by name only). -/
def projFallbackLoop (limit : Nat) :
    List ProjRow → List String → List Nat → List Nat
  | [], _, sel => sel
  | r :: rest, seenNames, sel =>
    let nameLower := strLower (strTrim (r.name.getD ""))
    if nameLower != "" && seenNames.contains nameLower then
      projFallbackLoop limit rest seenNames sel
    else
      let seenNames1 := if nameLower != "" then nameLower :: seenNames else seenNames
      let sel1 := sel ++ [r.id]
      if limit ≤ sel1.length then sel1
      else projFallbackLoop limit rest seenNames1 sel1

/-- The activity dedup loop: skip rows whose group key or organization+role
key was already selected, stop at the limit. -/
def actLoop (limit : Nat) :
    List ActRow → List GroupKey → List String → List Nat → List Nat
  | [], _, _, sel => sel
  | r :: rest, seenGroups, seenKeys, sel =>
    let gk := groupKeyOf r.variantGroupId r.id
    if seenGroups.contains gk then actLoop limit rest seenGroups seenKeys sel
    else
      let orgStr := strTrim (r.organization.getD "")
      let dedupKey := strLower orgStr ++ "|" ++
        strTake (strLower (strTrim (r.roleTitle.getD ""))) 20
      if seenKeys.contains dedupKey && orgStr != "" then
        actLoop limit rest seenGroups seenKeys sel
      else
        let seenGroups1 := gk :: seenGroups
        let seenKeys1 := if orgStr != "" then dedupKey :: seenKeys else seenKeys
        let sel1 := sel ++ [r.id]
        if limit ≤ sel1.length then sel1
        else actLoop limit rest seenGroups1 seenKeys1 sel1

/-- The projects half of `select_experiences`: run the similarity query (a
raised exception propagates through the monadic bind — there is no handler),
dedup, and when nothing was selected fall back to the unranked fetch.  The
`seen_proj_names` set is empty on entering the fallback since a name is
recorded exactly when a project is appended. -/
def selectProjectsStep (queryRes : Except String (List ProjRow))
    (fallbackRows : List ProjRow) (limit : Nat) : Except String (List Nat) := do
  let rows ← queryRes
  let sel := projLoop limit rows [] [] []
  if sel.isEmpty then
    pure (projFallbackLoop limit fallbackRows [] [])
  else
    pure sel

/-- The activities half of `select_experiences`: similarity query (raised
exceptions propagate), dedup, and a plain unranked fallback when nothing was
selected. -/
def selectActivitiesStep (queryRes : Except String (List ActRow))
    (fallbackRows : List ActRow) (limit : Nat) : Except String (List Nat) := do
  let rows ← queryRes
  let sel := actLoop limit rows [] [] []
  if sel.isEmpty then
    pure (fallbackRows.map (fun r => r.id))
  else
    pure sel

/-- The two per-kind selections as they run inside `select_experiences`: one
after the other, each raised exception aborting the whole computation. -/
def selectProjectsAndActivities (projQ : Except String (List ProjRow))
    (projFallback : List ProjRow) (actQ : Except String (List ActRow))
    (actFallback : List ActRow) (projLimit actLimit : Nat) :
    Except String (List Nat × List Nat) := do
  let ps ← selectProjectsStep projQ projFallback projLimit
  let acts ← selectActivitiesStep actQ actFallback actLimit
  pure (ps, acts)

/-! ### Rendered-line budget enforcement -/

/-- Rendered lines charged for one selected entry: 1 header line plus the
entry's estimated bullet lines from the counts dict, with the per-kind
default when the id is absent. -/
def lineGet (m : Nat → Option Nat) (dflt : Nat) (id : Nat) : ℤ :=
  1 + ((m id).getD dflt : ℤ)

/-- Total rendered lines of a list of selected experiences. -/
def sumLinesExp (m : Nat → Option Nat) (dflt : Nat) (es : List SelectedExp) : ℤ :=
  (es.map (fun e => lineGet m dflt e.id)).sum

/-- Total rendered lines of a list of selected project / activity ids. -/
def sumLinesIds (m : Nat → Option Nat) (dflt : Nat) (xs : List Nat) : ℤ :=
  (xs.map (lineGet m dflt)).sum

/-- The section trim loop, processing the reversed list (`list.pop()` removes
the last element): while over budget and the section is non-empty, drop the
last entry and subtract its lines. -/
def trimRev (budget : ℤ) (m : Nat → Option Nat) (dflt : Nat) :
    ℤ → List Nat → ℤ × List Nat
  | total, [] => (total, [])
  | total, x :: rest =>
    if budget < total then trimRev budget m dflt (total - lineGet m dflt x) rest
    else (total, x :: rest)

/-- Trim one section (projects or activities) from its end while over budget. -/
def trimSection (budget : ℤ) (m : Nat → Option Nat) (dflt : Nat)
    (total : ℤ) (xs : List Nat) : ℤ × List Nat :=
  let res := trimRev budget m dflt total xs.reverse
  (res.1, res.2.reverse)

/-- The last-resort experience trim, processing the reversed list: while over
budget and more than 3 experiences remain, drop the last one. -/
def trimExpRev (budget : ℤ) (m : Nat → Option Nat) :
    ℤ → List SelectedExp → ℤ × List SelectedExp
  | total, [] => (total, [])
  | total, x :: rest =>
    if budget < total ∧ 3 < rest.length + 1 then
      trimExpRev budget m (total - lineGet m 3 x.id) rest
    else (total, x :: rest)

/-- Trim experiences from the end while over budget, never below 3 entries. -/
def trimExpFloor (budget : ℤ) (m : Nat → Option Nat)
    (total : ℤ) (es : List SelectedExp) : ℤ × List SelectedExp :=
  let res := trimExpRev budget m total es.reverse
  (res.1, res.2.reverse)

/-- Result of the budget phase. -/
structure BudgetResult where
  totalLines : ℤ
  experiences : List SelectedExp
  projects : List Nat
  activities : List Nat
deriving DecidableEq

/-- The page line-budget enforcement of `select_experiences`: compute the
total rendered lines (1 header + bullet estimate per entry, defaults 3 / 2 /
3 for experiences / projects / activities); if over `34 * max_pages`, trim
activities then projects for tech JDs, projects then activities otherwise,
and as a last resort trim experiences down to a floor of 3. -/
def enforceBudget (maxPages : Nat) (isTech : Bool)
    (selected : List SelectedExp) (projs acts : List Nat)
    (expM projM actM : Nat → Option Nat) : BudgetResult :=
  let maxLines : ℤ := 34 * maxPages
  let total := sumLinesExp expM 3 selected + sumLinesIds projM 2 projs +
    sumLinesIds actM 3 acts
  if maxLines < total then
    if isTech then
      let ta := trimSection maxLines actM 3 total acts
      let tp := trimSection maxLines projM 2 ta.1 projs
      let te := trimExpFloor maxLines expM tp.1 selected
      ⟨te.1, te.2, tp.2, ta.2⟩
    else
      let tp := trimSection maxLines projM 2 total projs
      let ta := trimSection maxLines actM 3 tp.1 acts
      let te := trimExpFloor maxLines expM ta.1 selected
      ⟨te.1, te.2, tp.2, ta.2⟩
  else ⟨total, selected, projs, acts⟩

/-! ### Skill selection -/

/-- A row of the skills fetch: id, owner, name, category, `is_duplicate_of`. -/
structure SkillRec where
  id : Nat
  userId : Nat
  name : Option String
  category : Option String
  isDuplicateOf : Option Nat
deriving DecidableEq

/-- `name_lower`: the skill name stripped and lowercased. -/
def skillNameLower (r : SkillRec) : String := strLower (strTrim (r.name.getD ""))

/-- The JD-match test for one skill name: equal to a JD term, or a substring
of one, or containing one. -/
def skillMatches (jdTerms : List String) (nameLower : String) : Bool :=
  jdTerms.any (fun term =>
    nameLower == term || strContains term nameLower || strContains nameLower term)

/-- The JD term set: the four JD string lists, lowercased. -/
def jdTermsOf (requiredSkills niceToHave tools keywords : List String) : List String :=
  (requiredSkills ++ niceToHave ++ tools ++ keywords).map strLower

/-- The partition loop: walk the fetched rows, skipping already-seen or empty
lowercase names and tool-category skills (which still claim their name), and
split the rest into JD-matching and non-matching, keeping fetch order. -/
def partitionSkills (jdTerms : List String) :
    List SkillRec → List String → List SkillRec × List SkillRec
  | [], _ => ([], [])
  | r :: rest, seen =>
    let nl := skillNameLower r
    if seen.contains nl || nl == "" then partitionSkills jdTerms rest seen
    else
      let seen1 := nl :: seen
      if strLower (r.category.getD "") == "tool" then partitionSkills jdTerms rest seen1
      else
        let mn := partitionSkills jdTerms rest seen1
        if skillMatches jdTerms nl then (r :: mn.1, mn.2) else (mn.1, r :: mn.2)

/-- The skill-selection phase of `select_experiences`: fetch the user's
non-duplicate skills, partition into JD-matching and non-matching with
name-dedup and tool exclusion, then cap at `MAX_SKILLS` taking matches
first. -/
def selectSkillRows (jdTerms : List String) (skillTable : List SkillRec)
    (userId : Nat) : List SkillRec :=
  let rows := skillTable.filter (fun s => s.isDuplicateOf.isNone && s.userId == userId)
  let mn := partitionSkills jdTerms rows []
  let chosen := mn.1.take maxSkills
  chosen ++ mn.2.take (maxSkills - chosen.length)

/-- `selected_skills`: the chosen skill ids. -/
def selectSkills (jdTerms : List String) (skillTable : List SkillRec)
    (userId : Nat) : List Nat :=
  (selectSkillRows jdTerms skillTable userId).map (fun r => r.id)

/-! ### Variant-group invariant -/

/-- Two entities clash when both are primary in the same (non-null) variant
group. -/
def primaryClash (a b : EntityRec) : Bool :=
  a.isPrimaryVariant && b.isPrimaryVariant && a.variantGroupId.isSome &&
    (a.variantGroupId == b.variantGroupId)

/-- The spec invariant: within each variant group, at most one entity is
primary. -/
def noTwoPrimaries : List EntityRec → Bool
  | [] => true
  | a :: rest => rest.all (fun b => !(primaryClash a b)) && noTwoPrimaries rest

/-! ### Concrete instances used by counterexamples and witnesses -/

/-- A stored row owned by user 7, embedded, similarity 0.9 to the query. -/
def crossUserRow : EntityRec :=
  { id := 1, userId := 7, variantGroupId := none, isPrimaryVariant := true,
    similarityScore := none, hasSimilarityField := true, embedding := some 0 }

/-- A freshly-created entity of user 42 about to be deduplicated. -/
def dedupItemUser42 : EntityRec :=
  { id := 5, userId := 42, variantGroupId := none, isPrimaryVariant := true,
    similarityScore := none, hasSimilarityField := true, embedding := none }

/-- An already-grouped, non-primary entity (variant group 7). -/
def groupedItem : EntityRec :=
  { id := 5, userId := 42, variantGroupId := some 7, isPrimaryVariant := false,
    similarityScore := none, hasSimilarityField := true, embedding := none }

/-- A stored candidate row that is embedded but carries no variant group id. -/
def ungroupedCandidate : EntityRec :=
  { id := 1, userId := 0, variantGroupId := none, isPrimaryVariant := true,
    similarityScore := none, hasSimilarityField := true, embedding := some 0 }

/-- A freshly-created entity with no dedup metadata yet. -/
def freshUploadItem : EntityRec :=
  { id := 5, userId := 0, variantGroupId := none, isPrimaryVariant := true,
    similarityScore := none, hasSimilarityField := true, embedding := none }

/-- A pool entity that is primary in variant group 1 and has no embedding. -/
def primaryInGroup1 : EntityRec :=
  { id := 1, userId := 0, variantGroupId := some 1, isPrimaryVariant := true,
    similarityScore := none, hasSimilarityField := true, embedding := none }

/-- An entity previously grouped into variant group 1 as non-primary. -/
def regroupedItem : EntityRec :=
  { id := 2, userId := 0, variantGroupId := some 1, isPrimaryVariant := false,
    similarityScore := none, hasSimilarityField := true, embedding := some 0 }

/-- A fetched experience row with similarity 0.95 and a domain tag matching
the JD domain keywords. -/
def boostedRow : ExpRow :=
  { id := 1, company := some "Acme", roleTitle := some "Dev",
    variantGroupId := none, domainTags := some ["fintech"], similarity := 95/100 }

/-! ## Claim theorems -/

/-- C1: the dedup similarity lookup modelled from `_find_similar` has no
user predicate: evaluated on a pool whose single embedded row belongs to
user 7, while the entity being deduplicated belongs to user 42, the lookup
still returns that row (with its similarity 0.9 above the variant threshold
0.75), contradicting the claim that only same-user entities are returned. -/
theorem c1_lookup_returns_other_users_rows :
    dedupSimilarLookup [crossUserRow] (fun _ => 9/10) = [(1, none, 9/10)] ∧
    crossUserRow.userId ≠ dedupItemUser42.userId := by
  decide

/-- C2: every pipeline dedup call passes 3 arguments to a 2-parameter
function, so the modelled Python call raises TypeError; the surrounding
handler then assigns a fresh singleton variant group and marks the entity
primary, and no `DeduplicationResult` is produced — the entity is never
classified as a variant or near-duplicate. -/
theorem c2_pipeline_dedup_always_fails_open :
    ∀ (normal : EntityRec → EntityRec × DeduplicationResult) (freshId : Nat) (e : EntityRec),
    pythonCall deduplicateExperienceParamCount pipelineDedupArgCount normal e
        = Except.error "TypeError" ∧
    ingestExperienceDedup normal freshId e
        = ({ e with variantGroupId := some freshId, isPrimaryVariant := true }, none) ∧
    ingestProjectDedup normal freshId e
        = ({ e with variantGroupId := some freshId, isPrimaryVariant := true }, none) ∧
    ingestActivityDedup normal freshId e
        = ({ e with variantGroupId := some freshId, isPrimaryVariant := true }, none) := by
  intro normal freshId e
  exact ⟨rfl, rfl, rfl, rfl⟩

/-- C4 counterexample: classifying an entity that already carries variant
group 7 with no candidates above threshold keeps that existing group id —
the fresh variant-group identity (42 here) is not assigned, contradicting
the claim that the entity is assigned a fresh variant-group identity. -/
theorem c4_counterexample_existing_group_kept :
    (classify [] groupedItem nearDuplicateThreshold 42).2.action = "new" ∧
    (classify [] groupedItem nearDuplicateThreshold 42).1.variantGroupId = some 7 ∧
    (classify [] groupedItem nearDuplicateThreshold 42).1.variantGroupId ≠ some 42 := by
  decide

/-- C4 amended: with no candidates the entity is marked primary with action
new and keeps its existing variant-group id, receiving the fresh id only
when it has none; with a best candidate the entity is marked non-primary,
takes the candidate's variant-group id when the candidate has one (else the
fresh id), and the action is near_duplicate exactly when the best similarity
exceeds the near threshold, else variant. -/
theorem c4_classify_cases :
    ∀ (similar : List (Nat × Option Nat × ℚ)) (item : EntityRec) (near : ℚ) (fresh : Nat),
    (similar = [] →
      (classify similar item near fresh).2.action = "new" ∧
      (classify similar item near fresh).1.isPrimaryVariant = true ∧
      (classify similar item near fresh).1.variantGroupId
          = some (item.variantGroupId.getD fresh)) ∧
    (∀ best rest, similar = best :: rest →
      (classify similar item near fresh).1.isPrimaryVariant = false ∧
      (classify similar item near fresh).1.variantGroupId = some (best.2.1.getD fresh) ∧
      (classify similar item near fresh).2.existingId = some best.1 ∧
      (classify similar item near fresh).2.similarityScore = best.2.2 ∧
      (classify similar item near fresh).2.action
          = (if near < best.2.2 then "near_duplicate" else "variant")) := by
  intro similar item near fresh
  constructor
  · rintro rfl
    exact ⟨rfl, rfl, rfl⟩
  · rintro ⟨bid, bg, bs⟩ rest rfl
    cases hf : item.hasSimilarityField <;>
      simp [classify, hf]

/-- C4 witness: the amended classification evaluated at a concrete best
candidate carrying group 9 and similarity 0.95. -/
theorem c4_witness :
    (classify [(3, some 9, (95:ℚ)/100)] dedupItemUser42 (92/100) 11).1.variantGroupId = some 9 ∧
    (classify [(3, some 9, (95:ℚ)/100)] dedupItemUser42 (92/100) 11).2.action = "near_duplicate" := by
  have h := (c4_classify_cases [(3, some 9, (95:ℚ)/100)] dedupItemUser42 (92/100) 11).2
    (3, some 9, (95:ℚ)/100) [] rfl
  refine ⟨h.2.1, ?_⟩
  have hlt : (92:ℚ)/100 < 95/100 := by norm_num
  simpa [hlt] using h.2.2.2.2

/-- C5 counterexample: against the same one-row pool whose best (and only)
candidate carries no variant group id, re-running the dedup classification
draws a second fresh uuid: the first run assigns group 5, the re-run group
6, so the variant-group id is not stable. -/
theorem c5_counterexample_ungrouped_match :
    (deduplicateStep [ungroupedCandidate] (fun _ => 9/10)
        ((deduplicateStep [ungroupedCandidate] (fun _ => 9/10) freshUploadItem 5).1) 6).1.variantGroupId
      ≠ (deduplicateStep [ungroupedCandidate] (fun _ => 9/10) freshUploadItem 5).1.variantGroupId := by
  decide

/-- C5 amended: re-running the dedup classification against the same pool
yields the same variant-group id and primary flag provided the similarity
lookup is empty or its best candidate already carries a variant-group id;
only an ungrouped best candidate breaks idempotence (a fresh uuid is drawn
per run). -/
theorem c5_idempotent_when_match_grouped :
    ∀ (pool : List EntityRec) (sim : Nat → ℚ) (item : EntityRec) (f1 f2 : Nat),
    (findSimilar pool sim variantThreshold = [] ∨
      ∃ best rest g, findSimilar pool sim variantThreshold = best :: rest ∧ best.2.1 = some g) →
    (deduplicateStep pool sim ((deduplicateStep pool sim item f1).1) f2).1.variantGroupId
        = (deduplicateStep pool sim item f1).1.variantGroupId ∧
    (deduplicateStep pool sim ((deduplicateStep pool sim item f1).1) f2).1.isPrimaryVariant
        = (deduplicateStep pool sim item f1).1.isPrimaryVariant := by
  intro pool sim item f1 f2 h
  rcases h with h | ⟨⟨bid, bg, bs⟩, rest, g, h, hg⟩
  · simp only [deduplicateStep, h]
    simp [classify]
  · obtain rfl : bg = some g := by simpa using hg
    simp only [deduplicateStep, h]
    cases hf : item.hasSimilarityField <;>
      simp [classify, hf]

/-- C5 witness: on the empty pool the lookup is empty, and the re-run keeps
the group id and primary flag of the first run. -/
theorem c5_witness :
    (deduplicateStep [] (fun _ => 0) ((deduplicateStep [] (fun _ => 0) freshUploadItem 1).1) 2).1.variantGroupId
        = (deduplicateStep [] (fun _ => 0) freshUploadItem 1).1.variantGroupId ∧
    (deduplicateStep [] (fun _ => 0) ((deduplicateStep [] (fun _ => 0) freshUploadItem 1).1) 2).1.isPrimaryVariant
        = (deduplicateStep [] (fun _ => 0) freshUploadItem 1).1.isPrimaryVariant :=
  c5_idempotent_when_match_grouped [] (fun _ => 0) freshUploadItem 1 2 (Or.inl rfl)

/-- C6 counterexample: a raised (not merely empty) projects similarity query
propagates out of the combined per-kind selection — the whole selection
aborts, contradicting the claim that a query failure never aborts it. -/
theorem c6_counterexample_query_error_aborts :
    selectProjectsAndActivities (Except.error "similarity query failed") []
      (Except.ok []) [] 2 1 = Except.error "similarity query failed" := rfl

/-- C6 amended: a per-kind similarity query that yields zero rows (the
degraded case the code actually handles) falls back to the unranked fetch
for that kind only: the projects fallback result does not depend on the
activities query, and the activities outcome is unchanged by the empty
projects query. -/
theorem c6_empty_result_falls_back_per_kind :
    ∀ (projFallback : List ProjRow) (projLimit : Nat)
      (actRows actFallback : List ActRow) (actLimit : Nat),
    selectProjectsStep (Except.ok []) projFallback projLimit
        = Except.ok (projFallbackLoop projLimit projFallback [] []) ∧
    selectActivitiesStep (Except.ok []) actFallback actLimit
        = Except.ok (actFallback.map (fun r => r.id)) ∧
    selectProjectsAndActivities (Except.ok []) projFallback (Except.ok actRows)
        actFallback projLimit actLimit
      = (selectActivitiesStep (Except.ok actRows) actFallback actLimit).map
          (fun acts => (projFallbackLoop projLimit projFallback [] [], acts)) := by
  intro projFallback projLimit actRows actFallback actLimit
  refine ⟨rfl, rfl, ?_⟩
  cases h : selectActivitiesStep (Except.ok actRows) actFallback actLimit with
  | ok a =>
    simp [selectProjectsAndActivities, selectProjectsStep, h, Except.map,
      bind, Except.bind, pure, Except.pure, projLoop]
  | error e =>
    simp [selectProjectsAndActivities, selectProjectsStep, h, Except.map,
      bind, Except.bind, pure, Except.pure, projLoop]

/-- C9 counterexample: with JD domain quantitative finance the inferred
keyword set is the exact strings [quantitative finance, quant, finance]; an
experience tagged quantitative trading shares none of them (intersection is
exact string equality), so its score is unchanged — not 0.08 higher. -/
theorem c9_counterexample_no_boost :
    domainBoostRow (domainKeywordsOf "quantitative finance")
        (some ["quantitative trading"]) (1/2) = 1/2 ∧
    ¬((1:ℚ)/2 + domainBoostValue ≤
      domainBoostRow (domainKeywordsOf "quantitative finance")
        (some ["quantitative trading"]) (1/2)) := by
  decide

/-- C9 amended: the boost is exact-match: an experience whose lowercased
domain tags contain the literal keyword quant gets the flat 0.08 boost,
while the tag quantitative trading (which merely shares the substring
quant) gets none. -/
theorem c9_boost_is_exact_match :
    (∀ (s : ℚ) (tags : List String), "quant" ∈ tags.map strLower →
      domainBoostRow (domainKeywordsOf "quantitative finance") (some tags) s
        = s + domainBoostValue) ∧
    (∀ s : ℚ, domainBoostRow (domainKeywordsOf "quantitative finance")
        (some ["quantitative trading"]) s = s) := by
  have hkw : domainKeywordsOf "quantitative finance"
      = ["quantitative finance", "quant", "finance"] := by decide
  constructor
  · intro s tags hmem
    have hne : tags.isEmpty = false := by
      cases tags with
      | nil => simp at hmem
      | cons a l => rfl
    have hany : (tags.map strLower).any
        (fun t => (domainKeywordsOf "quantitative finance").contains t) = true := by
      refine List.any_eq_true.mpr ⟨"quant", hmem, ?_⟩
      rw [hkw]; decide
    have hcond : (!tags.isEmpty && !(domainKeywordsOf "quantitative finance").isEmpty &&
        (tags.map strLower).any
          (fun t => (domainKeywordsOf "quantitative finance").contains t)) = true := by
      rw [hne, hany, hkw]
      rfl
    simp only [domainBoostRow, hcond, if_true]
  · intro s
    have hcond : (!(["quantitative trading"] : List String).isEmpty &&
        !(domainKeywordsOf "quantitative finance").isEmpty &&
        ((["quantitative trading"].map strLower).any
          (fun t => (domainKeywordsOf "quantitative finance").contains t))) = false := by
      rw [hkw]; decide
    simp only [domainBoostRow, hcond, Bool.false_eq_true, if_false]

/-- C9 witness: a concrete experience tagged exactly quant, raw similarity
one half, is boosted to 0.58. -/
theorem c9_witness :
    "quant" ∈ (["quant"].map strLower) ∧
    domainBoostRow (domainKeywordsOf "quantitative finance") (some ["quant"]) (1/2)
      = 1/2 + domainBoostValue :=
  ⟨by decide, c9_boost_is_exact_match.1 (1/2) ["quant"] (by decide)⟩

/-- C7 counterexample: a fintech JD and an experience with raw similarity
0.95 and a matching domain tag: the returned relevance score is 1.03,
outside the claimed interval from 0 to 1. -/
theorem c7_counterexample_score_above_one :
    selectExperiencesPhase "fintech" [boostedRow] 1
        = [{ id := 1, relevanceScore := 103/100 }] ∧
    ¬((103:ℚ)/100 ≤ 1) := by
  decide

/-- Appending a single entity that clashes with no pool entity preserves the
at-most-one-primary invariant. -/
theorem noTwoPrimaries_append (pool : List EntityRec) (x : EntityRec)
    (h1 : noTwoPrimaries pool = true) (h2 : ∀ a ∈ pool, primaryClash a x = false) :
    noTwoPrimaries (pool ++ [x]) = true := by
  induction pool with
  | nil => simp [noTwoPrimaries]
  | cons a rest ih =>
    simp only [noTwoPrimaries, Bool.and_eq_true, List.all_eq_true] at h1
    obtain ⟨ha, hrest⟩ := h1
    simp only [List.cons_append, noTwoPrimaries, Bool.and_eq_true, List.all_eq_true]
    refine ⟨?_, ih hrest (fun b hb => h2 b (List.mem_cons_of_mem a hb))⟩
    intro b hb
    rcases List.mem_append.mp hb with hb | hb
    · exact ha b hb
    · simp only [List.mem_singleton] at hb
      subst hb
      simp [h2 a (List.mem_cons_self a rest)]

/-- C10 amended: the dedup operations preserve the at-most-one-primary
invariant for entities that do not already carry a variant group id (the
fresh-upload case), provided the fresh uuid is unused in the pool: the
no-candidate classification and the pipeline fail-open path add a primary
only to a fresh singleton group, and the variant / near-duplicate
classifications mark the entity non-primary. -/
theorem c10_invariant_preserved_for_ungrouped :
    ∀ (pool : List EntityRec) (sim : Nat → ℚ) (item : EntityRec) (freshId : Nat)
      (normal : EntityRec → EntityRec × DeduplicationResult),
    noTwoPrimaries pool = true →
    item.variantGroupId = none →
    (∀ e ∈ pool, e.variantGroupId ≠ some freshId) →
    noTwoPrimaries (pool ++ [(deduplicateStep pool sim item freshId).1]) = true ∧
    noTwoPrimaries (pool ++ [(ingestExperienceDedup normal freshId item).1]) = true := by
  intro pool sim item freshId normal h1 h2 h3
  constructor
  · refine noTwoPrimaries_append pool _ h1 ?_
    intro a ha
    cases hs : findSimilar pool sim variantThreshold with
    | nil =>
      have hx : (deduplicateStep pool sim item freshId).1
          = { item with variantGroupId := some freshId, isPrimaryVariant := true } := by
        simp [deduplicateStep, hs, classify, h2]
      have hb : (a.variantGroupId == some freshId) = false :=
        beq_eq_false_iff_ne.mpr (h3 a ha)
      rw [hx]
      simp [primaryClash, hb]
    | cons b rest =>
      have hx : (deduplicateStep pool sim item freshId).1.isPrimaryVariant = false := by
        obtain ⟨bid, bg, bs⟩ := b
        cases hf : item.hasSimilarityField <;>
          simp [deduplicateStep, hs, classify, hf]
      simp [primaryClash, hx]
  · refine noTwoPrimaries_append pool _ h1 ?_
    intro a ha
    have hx : (ingestExperienceDedup normal freshId item).1
        = { item with variantGroupId := some freshId, isPrimaryVariant := true } := rfl
    have hb : (a.variantGroupId == some freshId) = false :=
      beq_eq_false_iff_ne.mpr (h3 a ha)
    rw [hx]
    simp [primaryClash, hb]

/-- C10 witness: preservation evaluated on the empty pool with a fresh
upload entity and fresh uuid 3. -/
theorem c10_witness :
    noTwoPrimaries ([] ++ [(deduplicateStep [] (fun _ => 0) freshUploadItem 3).1]) = true ∧
    noTwoPrimaries ([] ++ [(ingestExperienceDedup
        (fun e => classify [] e nearDuplicateThreshold 0) 3 freshUploadItem).1]) = true :=
  c10_invariant_preserved_for_ungrouped [] (fun _ => 0) freshUploadItem 3
    (fun e => classify [] e nearDuplicateThreshold 0) (by decide) (by decide)
    (fun e he => absurd he (List.not_mem_nil e))

/-- C10 counterexample: a pool whose only entity is primary in group 1 with
no embedding, and an entity previously grouped into group 1 as non-primary:
re-classifying it finds no candidates (the primary has no embedding), keeps
group 1 and marks it primary — the pool now holds two primaries in group 1,
so the dedup operation does not preserve the claimed invariant. -/
theorem c10_counterexample_two_primaries :
    noTwoPrimaries [primaryInGroup1] = true ∧
    noTwoPrimaries ([primaryInGroup1] ++
      [(deduplicateStep [primaryInGroup1] (fun _ => 0) regroupedItem 9).1]) = false := by
  decide

/-- The trim loop keeps the running total in sync with the surviving
entries: the lines removed are exactly those of the dropped entries. -/
theorem trimRev_sum (b : ℤ) (m : Nat → Option Nat) (d : Nat) :
    ∀ (rev : List Nat) (total : ℤ),
    (trimRev b m d total rev).1
      = total - (rev.map (lineGet m d)).sum
        + ((trimRev b m d total rev).2.map (lineGet m d)).sum := by
  intro rev
  induction rev with
  | nil => intro total; simp [trimRev]
  | cons x rest ih =>
    intro total
    by_cases h : b < total
    · simp only [trimRev, if_pos h]
      rw [ih]
      simp only [List.map_cons, List.sum_cons]
      ring
    · simp only [trimRev, if_neg h]
      ring

/-- The trim loop stops under budget or exhausts the section. -/
theorem trimRev_post (b : ℤ) (m : Nat → Option Nat) (d : Nat) :
    ∀ (rev : List Nat) (total : ℤ),
    (trimRev b m d total rev).1 ≤ b ∨ (trimRev b m d total rev).2 = [] := by
  intro rev
  induction rev with
  | nil => intro total; right; rfl
  | cons x rest ih =>
    intro total
    by_cases h : b < total
    · simp only [trimRev, if_pos h]
      exact ih _
    · simp only [trimRev, if_neg h]
      left
      omega

/-- Under budget, the trim loop changes nothing. -/
theorem trimRev_noop (b : ℤ) (m : Nat → Option Nat) (d : Nat)
    (rev : List Nat) (total : ℤ) (h : total ≤ b) :
    trimRev b m d total rev = (total, rev) := by
  cases rev with
  | nil => rfl
  | cons x rest => simp [trimRev, not_lt.mpr h]

theorem trimSection_sum (b : ℤ) (m : Nat → Option Nat) (d : Nat)
    (total : ℤ) (xs : List Nat) :
    (trimSection b m d total xs).1
      = total - sumLinesIds m d xs + sumLinesIds m d (trimSection b m d total xs).2 := by
  have h := trimRev_sum b m d xs.reverse total
  simp only [trimSection, sumLinesIds]
  rw [h]
  simp [List.map_reverse, List.sum_reverse]

theorem trimSection_post (b : ℤ) (m : Nat → Option Nat) (d : Nat)
    (total : ℤ) (xs : List Nat) :
    (trimSection b m d total xs).1 ≤ b ∨ (trimSection b m d total xs).2 = [] := by
  rcases trimRev_post b m d xs.reverse total with h | h
  · left; exact h
  · right; simp [trimSection, h]

theorem trimSection_noop (b : ℤ) (m : Nat → Option Nat) (d : Nat)
    (total : ℤ) (xs : List Nat) (h : total ≤ b) :
    trimSection b m d total xs = (total, xs) := by
  simp [trimSection, trimRev_noop b m d xs.reverse total h]

/-- The experience trim keeps the running total in sync with the survivors. -/
theorem trimExpRev_sum (b : ℤ) (m : Nat → Option Nat) :
    ∀ (rev : List SelectedExp) (total : ℤ),
    (trimExpRev b m total rev).1
      = total - (rev.map (fun e => lineGet m 3 e.id)).sum
        + ((trimExpRev b m total rev).2.map (fun e => lineGet m 3 e.id)).sum := by
  intro rev
  induction rev with
  | nil => intro total; simp [trimExpRev]
  | cons x rest ih =>
    intro total
    by_cases h : b < total ∧ 3 < rest.length + 1
    · simp only [trimExpRev, if_pos h]
      rw [ih]
      simp only [List.map_cons, List.sum_cons]
      ring
    · simp only [trimExpRev, if_neg h]
      ring

/-- The experience trim stops under budget or at the floor of 3. -/
theorem trimExpRev_post (b : ℤ) (m : Nat → Option Nat) :
    ∀ (rev : List SelectedExp) (total : ℤ),
    (trimExpRev b m total rev).1 ≤ b ∨ (trimExpRev b m total rev).2.length ≤ 3 := by
  intro rev
  induction rev with
  | nil => intro total; right; simp [trimExpRev]
  | cons x rest ih =>
    intro total
    by_cases h : b < total ∧ 3 < rest.length + 1
    · simp only [trimExpRev, if_pos h]
      exact ih _
    · simp only [trimExpRev, if_neg h]
      rw [not_and_or] at h
      rcases h with h | h
      · left; omega
      · right
        simp only [List.length_cons]
        omega

theorem trimExpRev_noop (b : ℤ) (m : Nat → Option Nat)
    (rev : List SelectedExp) (total : ℤ) (h : total ≤ b) :
    trimExpRev b m total rev = (total, rev) := by
  cases rev with
  | nil => rfl
  | cons x rest =>
    have : ¬(b < total ∧ 3 < rest.length + 1) := by
      rw [not_and_or]; left; omega
    simp [trimExpRev, this]

theorem trimExpFloor_sum (b : ℤ) (m : Nat → Option Nat)
    (total : ℤ) (es : List SelectedExp) :
    (trimExpFloor b m total es).1
      = total - sumLinesExp m 3 es + sumLinesExp m 3 (trimExpFloor b m total es).2 := by
  have h := trimExpRev_sum b m es.reverse total
  simp only [trimExpFloor, sumLinesExp]
  rw [h]
  simp [List.map_reverse, List.sum_reverse]

theorem trimExpFloor_post (b : ℤ) (m : Nat → Option Nat)
    (total : ℤ) (es : List SelectedExp) :
    (trimExpFloor b m total es).1 ≤ b ∨ (trimExpFloor b m total es).2.length ≤ 3 := by
  rcases trimExpRev_post b m es.reverse total with h | h
  · left; exact h
  · right; simpa [trimExpFloor] using h

theorem trimExpFloor_noop (b : ℤ) (m : Nat → Option Nat)
    (total : ℤ) (es : List SelectedExp) (h : total ≤ b) :
    trimExpFloor b m total es = (total, es) := by
  simp [trimExpFloor, trimExpRev_noop b m es.reverse total h]

/-- The composed trim chain (two sections then the experience floor):
the final running total matches the surviving entries, and it is under
budget unless both sections are exhausted and the experiences are at the
floor. -/
theorem budgetChain (maxL : ℤ) (m1 m2 mE : Nat → Option Nat) (d1 d2 : Nat)
    (xs1 xs2 : List Nat) (es : List SelectedExp) (T : ℤ)
    (hT : T = sumLinesExp mE 3 es + sumLinesIds m1 d1 xs1 + sumLinesIds m2 d2 xs2) :
    (trimExpFloor maxL mE (trimSection maxL m2 d2 (trimSection maxL m1 d1 T xs1).1 xs2).1 es).1
      = sumLinesExp mE 3
          (trimExpFloor maxL mE (trimSection maxL m2 d2 (trimSection maxL m1 d1 T xs1).1 xs2).1 es).2
        + sumLinesIds m1 d1 (trimSection maxL m1 d1 T xs1).2
        + sumLinesIds m2 d2 (trimSection maxL m2 d2 (trimSection maxL m1 d1 T xs1).1 xs2).2 ∧
    ((trimExpFloor maxL mE (trimSection maxL m2 d2 (trimSection maxL m1 d1 T xs1).1 xs2).1 es).1 ≤ maxL ∨
      ((trimSection maxL m1 d1 T xs1).2 = [] ∧
       (trimSection maxL m2 d2 (trimSection maxL m1 d1 T xs1).1 xs2).2 = [] ∧
       (trimExpFloor maxL mE (trimSection maxL m2 d2 (trimSection maxL m1 d1 T xs1).1 xs2).1 es).2.length ≤ 3)) := by
  have e1 := trimSection_sum maxL m1 d1 T xs1
  have e2 := trimSection_sum maxL m2 d2 (trimSection maxL m1 d1 T xs1).1 xs2
  have e3 := trimExpFloor_sum maxL mE
    (trimSection maxL m2 d2 (trimSection maxL m1 d1 T xs1).1 xs2).1 es
  constructor
  · rw [e3, e2, e1, hT]
    ring
  · by_cases hle :
      (trimExpFloor maxL mE (trimSection maxL m2 d2 (trimSection maxL m1 d1 T xs1).1 xs2).1 es).1 ≤ maxL
    · exact Or.inl hle
    · right
      have hc2 : ¬ (trimSection maxL m2 d2 (trimSection maxL m1 d1 T xs1).1 xs2).1 ≤ maxL := by
        intro hc
        rw [trimExpFloor_noop _ _ _ _ hc] at hle
        exact hle hc
      have hc1 : ¬ (trimSection maxL m1 d1 T xs1).1 ≤ maxL := by
        intro hc
        rw [trimSection_noop _ _ _ _ _ hc] at hc2
        exact hc2 hc
      have hl1 := (trimSection_post maxL m1 d1 T xs1).resolve_left hc1
      have hl2 := (trimSection_post maxL m2 d2
        (trimSection maxL m1 d1 T xs1).1 xs2).resolve_left hc2
      have hlen := (trimExpFloor_post maxL mE
        (trimSection maxL m2 d2 (trimSection maxL m1 d1 T xs1).1 xs2).1 es).resolve_left hle
      exact ⟨hl1, hl2, hlen⟩

/-- C3: for every run of the budget phase, the reported total equals the
recomputed estimated rendered lines of the returned selections, and that
total is at most 34 times the page count unless both trimmable sections are
exhausted and the experiences are at (or below) the floor of 3 with the
content still over budget. -/
theorem c3_budget_invariant :
    ∀ (maxPages : Nat) (isTech : Bool) (selected : List SelectedExp)
      (projs acts : List Nat) (expM projM actM : Nat → Option Nat),
    (enforceBudget maxPages isTech selected projs acts expM projM actM).totalLines
      = sumLinesExp expM 3 (enforceBudget maxPages isTech selected projs acts expM projM actM).experiences
        + sumLinesIds projM 2 (enforceBudget maxPages isTech selected projs acts expM projM actM).projects
        + sumLinesIds actM 3 (enforceBudget maxPages isTech selected projs acts expM projM actM).activities ∧
    ((enforceBudget maxPages isTech selected projs acts expM projM actM).totalLines
        ≤ 34 * (maxPages : ℤ) ∨
      ((enforceBudget maxPages isTech selected projs acts expM projM actM).projects = [] ∧
       (enforceBudget maxPages isTech selected projs acts expM projM actM).activities = [] ∧
       (enforceBudget maxPages isTech selected projs acts expM projM actM).experiences.length ≤ 3)) := by
  intro maxPages isTech selected projs acts expM projM actM
  by_cases h0 : (34 * (maxPages : ℤ))
      < sumLinesExp expM 3 selected + sumLinesIds projM 2 projs + sumLinesIds actM 3 acts
  · cases isTech with
    | true =>
      simp only [enforceBudget, if_pos h0, if_true]
      have h := budgetChain (34 * (maxPages : ℤ)) actM projM expM 3 2 acts projs selected
        (sumLinesExp expM 3 selected + sumLinesIds projM 2 projs + sumLinesIds actM 3 acts)
        (by ring)
      exact ⟨by rw [h.1]; ring, by
        rcases h.2 with h2 | ⟨ha, hp, hl⟩
        · exact Or.inl h2
        · exact Or.inr ⟨hp, ha, hl⟩⟩
    | false =>
      simp only [enforceBudget, if_pos h0, Bool.false_eq_true, if_false]
      have h := budgetChain (34 * (maxPages : ℤ)) projM actM expM 2 3 projs acts selected
        (sumLinesExp expM 3 selected + sumLinesIds projM 2 projs + sumLinesIds actM 3 acts)
        (by ring)
      exact ⟨by rw [h.1], by
        rcases h.2 with h2 | ⟨hp, ha, hl⟩
        · exact Or.inl h2
        · exact Or.inr ⟨hp, ha, hl⟩⟩
  · simp only [enforceBudget, if_neg h0]
    exact ⟨trivial, Or.inl (not_lt.mp h0)⟩

theorem mem_insertDescBy {α : Type} (key : α → ℚ) (y x : α) :
    ∀ (l : List α), x ∈ insertDescBy key y l → x = y ∨ x ∈ l := by
  intro l
  induction l with
  | nil => intro h; simp only [insertDescBy, List.mem_singleton] at h; exact Or.inl h
  | cons z zs ih =>
    intro h
    simp only [insertDescBy] at h
    split_ifs at h
    · rcases List.mem_cons.mp h with h | h
      · exact Or.inl h
      · exact Or.inr h
    · rcases List.mem_cons.mp h with h | h
      · exact Or.inr (List.mem_cons.mpr (Or.inl h))
      · rcases ih h with h | h
        · exact Or.inl h
        · exact Or.inr (List.mem_cons_of_mem z h)

theorem mem_sortDescBy {α : Type} (key : α → ℚ) (x : α) :
    ∀ (l : List α), x ∈ sortDescBy key l → x ∈ l := by
  intro l
  induction l with
  | nil => intro h; simp [sortDescBy] at h
  | cons z zs ih =>
    intro h
    rcases mem_insertDescBy key z x (sortDescBy key zs) h with h | h
    · exact h ▸ List.mem_cons_self z zs
    · exact List.mem_cons_of_mem z (ih h)

/-- Every entry the selection loop emits that was not already in the
accumulator comes from one of the scored rows, with relevance equal to its
rounded boosted score. -/
theorem expLoop_mem (mp : Nat) :
    ∀ (rows : List ScoredRow) (sg : List (GroupKey × String))
      (scr : List (List String × String)) (acc : List SelectedExp) (s : SelectedExp),
    s ∈ expLoop mp rows sg scr acc →
    s ∈ acc ∨ ∃ r, r ∈ rows ∧ s = { id := r.id, relevanceScore := roundTo3 r.score } := by
  intro rows
  induction rows with
  | nil =>
    intro sg scr acc s hs
    exact Or.inl (by simpa [expLoop] using hs)
  | cons r rest ih =>
    intro sg scr acc s hs
    simp only [expLoop] at hs
    split_ifs at hs
    all_goals
      first
      | (rcases List.mem_append.mp hs with h | h
         · exact Or.inl h
         · right
           refine ⟨r, List.mem_cons_self r rest, ?_⟩
           simpa using h)
      | (rcases ih _ _ _ s hs with h | ⟨r2, hr2, hs2⟩
         · rcases List.mem_append.mp h with h | h
           · exact Or.inl h
           · right
             refine ⟨r, List.mem_cons_self r rest, ?_⟩
             simpa using h
         · exact Or.inr ⟨r2, List.mem_cons_of_mem r hr2, hs2⟩)
      | (rcases ih _ _ _ s hs with h | ⟨r2, hr2, hs2⟩
         · exact Or.inl h
         · exact Or.inr ⟨r2, List.mem_cons_of_mem r hr2, hs2⟩)

/-- The boost adds either nothing or exactly the flat boost value. -/
theorem domainBoostRow_bounds (kws : List String) (tags : Option (List String)) (sim : ℚ) :
    sim ≤ domainBoostRow kws tags sim ∧ domainBoostRow kws tags sim ≤ sim + domainBoostValue := by
  have hbv : (0:ℚ) ≤ domainBoostValue := by norm_num [domainBoostValue]
  cases tags with
  | none => exact ⟨le_refl _, by simpa [domainBoostRow] using by linarith⟩
  | some ts =>
    by_cases h : (!ts.isEmpty && !kws.isEmpty &&
        (ts.map strLower).any fun t => kws.contains t) = true
    · simp only [domainBoostRow, h, if_true]
      exact ⟨by linarith, le_refl _⟩
    · simp only [domainBoostRow, h, Bool.false_eq_true, if_false]
      exact ⟨le_refl _, by linarith⟩

/-- Rounding to 3 decimals keeps a score within the boosted range. -/
theorem roundTo3_bounds (q : ℚ) (h0 : 0 ≤ q) (h1 : q ≤ 27/25) :
    0 ≤ roundTo3 q ∧ roundTo3 q ≤ 27/25 := by
  have hr : round ((1000:ℚ) * q) = ⌊(1000:ℚ) * q + 1/2⌋ := round_eq _
  have hl : (0:ℤ) ≤ ⌊(1000:ℚ) * q + 1/2⌋ := by
    rw [Int.le_floor]
    push_cast
    linarith
  have hu : ⌊(1000:ℚ) * q + 1/2⌋ < 1081 := by
    rw [Int.floor_lt]
    push_cast
    linarith
  constructor
  · unfold roundTo3
    rw [hr]
    apply div_nonneg _ (by norm_num : (0:ℚ) ≤ 1000)
    exact_mod_cast hl
  · unfold roundTo3
    rw [hr, div_le_iff₀ (by norm_num : (0:ℚ) < 1000)]
    have hc : ((⌊(1000:ℚ) * q + 1/2⌋ : ℤ) : ℚ) ≤ 1080 := by
      exact_mod_cast Int.lt_add_one_iff.mp hu
    linarith

/-- A rounded score is an integer multiple of 1/1000. -/
theorem roundTo3_den (q : ℚ) : (1000 * roundTo3 q).den = 1 := by
  have h : (1000:ℚ) * roundTo3 q = ((round ((1000:ℚ) * q) : ℤ) : ℚ) := by
    unfold roundTo3
    ring
  rw [h, Rat.den_intCast]

/-- C7 amended: every relevance score in the returned experience selection
is the boosted cosine similarity rounded to 3 decimals: it is a multiple of
1/1000 and, when every raw similarity lies in the unit interval, lies in
the interval from 0 to 1.08 (it can exceed 1 by up to the domain boost). -/
theorem c7_scores_rounded_and_bounded :
    ∀ (rawDomain : String) (rows : List ExpRow) (maxPages : Nat),
    (rows.all fun r => decide ((0:ℚ) ≤ r.similarity) && decide (r.similarity ≤ 1)) = true →
    ((selectExperiencesPhase rawDomain rows maxPages).all fun s =>
      decide ((0:ℚ) ≤ s.relevanceScore) && decide (s.relevanceScore ≤ 27/25) &&
      ((1000 * s.relevanceScore).den == 1)) = true := by
  intro rawDomain rows maxPages hrows
  rw [List.all_eq_true] at hrows ⊢
  intro s hs
  rcases expLoop_mem maxPages _ _ _ _ s hs with h | ⟨sr, hsr, rfl⟩
  · exact absurd h (List.not_mem_nil s)
  · have hsr2 := mem_sortDescBy _ _ _ hsr
    rw [scoreRows, List.mem_map] at hsr2
    obtain ⟨r, hr, rfl⟩ := hsr2
    have hb := hrows r hr
    simp only [Bool.and_eq_true, decide_eq_true_eq] at hb
    have hbounds := domainBoostRow_bounds (domainKeywordsOf rawDomain) r.domainTags r.similarity
    have hq0 : (0:ℚ) ≤ domainBoostRow (domainKeywordsOf rawDomain) r.domainTags r.similarity :=
      le_trans hb.1 hbounds.1
    have hq1 : domainBoostRow (domainKeywordsOf rawDomain) r.domainTags r.similarity ≤ 27/25 := by
      have : r.similarity + domainBoostValue ≤ 27/25 := by
        have := hb.2
        norm_num [domainBoostValue]
        linarith
      linarith [hbounds.2]
    have hround := roundTo3_bounds _ hq0 hq1
    simp only [Bool.and_eq_true, decide_eq_true_eq, beq_iff_eq]
    exact ⟨⟨hround.1, hround.2⟩, roundTo3_den _⟩

/-- C7 witness: the amended bound evaluated on a single row of similarity
one half with no tags. -/
theorem c7_witness :
    (([⟨1, some "A", some "B", none, none, 1/2⟩] : List ExpRow).all fun r =>
      decide ((0:ℚ) ≤ r.similarity) && decide (r.similarity ≤ 1)) = true ∧
    ((selectExperiencesPhase "" ([⟨1, some "A", some "B", none, none, 1/2⟩] : List ExpRow) 1).all fun s =>
      decide ((0:ℚ) ≤ s.relevanceScore) && decide (s.relevanceScore ≤ 27/25) &&
      ((1000 * s.relevanceScore).den == 1)) = true :=
  ⟨by decide, c7_scores_rounded_and_bounded "" _ 1 (by decide)⟩

/-- Everything in the matched partition passes the JD-match test. -/
theorem partitionSkills_matched_sound (jd : List String) :
    ∀ (rows : List SkillRec) (seen : List String) (r : SkillRec),
    r ∈ (partitionSkills jd rows seen).1 → skillMatches jd (skillNameLower r) = true := by
  intro rows
  induction rows with
  | nil => intro seen r h; simp [partitionSkills] at h
  | cons r0 rest ih =>
    intro seen r h
    simp only [partitionSkills] at h
    split_ifs at h with h1 h2 h3
    · exact ih seen r h
    · exact ih _ r h
    · rcases List.mem_cons.mp h with h | h
      · exact h ▸ h3
      · exact ih _ r h
    · exact ih _ r h

/-- Everything in the non-matched partition fails the JD-match test. -/
theorem partitionSkills_nonmatched_sound (jd : List String) :
    ∀ (rows : List SkillRec) (seen : List String) (r : SkillRec),
    r ∈ (partitionSkills jd rows seen).2 → skillMatches jd (skillNameLower r) = false := by
  intro rows
  induction rows with
  | nil => intro seen r h; simp [partitionSkills] at h
  | cons r0 rest ih =>
    intro seen r h
    simp only [partitionSkills] at h
    split_ifs at h with h1 h2 h3
    · exact ih seen r h
    · exact ih _ r h
    · exact ih _ r h
    · rcases List.mem_cons.mp h with h | h
      · subst h
        simpa using h3
      · exact ih _ r h

/-- Both partitions are sublists of the fetched rows (fetch order kept). -/
theorem partitionSkills_sublist (jd : List String) :
    ∀ (rows : List SkillRec) (seen : List String),
    List.Sublist (partitionSkills jd rows seen).1 rows ∧
    List.Sublist (partitionSkills jd rows seen).2 rows := by
  intro rows
  induction rows with
  | nil => intro seen; exact ⟨List.nil_sublist [], List.nil_sublist []⟩
  | cons r0 rest ih =>
    intro seen
    simp only [partitionSkills]
    split_ifs with h1 h2 h3
    · exact ⟨(ih seen).1.cons r0, (ih seen).2.cons r0⟩
    · exact ⟨(ih _).1.cons r0, (ih _).2.cons r0⟩
    · exact ⟨(ih _).1.cons₂ r0, (ih _).2.cons r0⟩
    · exact ⟨(ih _).1.cons r0, (ih _).2.cons₂ r0⟩

/-- A row admitted by the seen-name and tool checks is not tool-category,
has a non-empty lowercase name, and its name is not in the seen set. -/
theorem skillHead_props (r0 : SkillRec) (seen : List String)
    (h1 : ¬(seen.contains (skillNameLower r0) || skillNameLower r0 == "") = true)
    (h2 : ¬(strLower (r0.category.getD "") == "tool") = true) :
    (strLower (r0.category.getD "") == "tool") = false ∧
      skillNameLower r0 ∉ seen ∧ skillNameLower r0 ≠ "" := by
  simp only [Bool.or_eq_true, not_or, Bool.not_eq_true] at h1
  refine ⟨by simpa using h2, ?_, ?_⟩
  · intro hc
    have hb : seen.contains (skillNameLower r0) = true := List.elem_eq_true_of_mem hc
    rw [h1.1] at hb
    exact Bool.false_ne_true hb
  · intro hc
    have hb : (skillNameLower r0 == "") = true := beq_iff_eq.mpr hc
    rw [h1.2] at hb
    exact Bool.false_ne_true hb

/-- Partition members are not tool-category, carry a non-empty lowercase
name, and their name was not previously seen. -/
theorem partitionSkills_props (jd : List String) :
    ∀ (rows : List SkillRec) (seen : List String) (r : SkillRec),
    (r ∈ (partitionSkills jd rows seen).1 ∨ r ∈ (partitionSkills jd rows seen).2) →
    (strLower (r.category.getD "") == "tool") = false ∧
      skillNameLower r ∉ seen ∧ skillNameLower r ≠ "" := by
  intro rows
  induction rows with
  | nil =>
    intro seen r h
    rcases h with h | h <;> simp [partitionSkills] at h
  | cons r0 rest ih =>
    intro seen r h
    have weaken : (r ∈ (partitionSkills jd rest (skillNameLower r0 :: seen)).1 ∨
        r ∈ (partitionSkills jd rest (skillNameLower r0 :: seen)).2) →
        (strLower (r.category.getD "") == "tool") = false ∧
          skillNameLower r ∉ seen ∧ skillNameLower r ≠ "" := by
      intro hm
      have hr := ih (skillNameLower r0 :: seen) r hm
      exact ⟨hr.1, fun hc => hr.2.1 (List.mem_cons_of_mem _ hc), hr.2.2⟩
    simp only [partitionSkills] at h
    split_ifs at h with h1 h2 h3
    · exact ih seen r h
    · exact weaken h
    · rcases h with h | h
      · rcases List.mem_cons.mp h with h | h
        · subst h
          exact skillHead_props r seen h1 h2
        · exact weaken (Or.inl h)
      · exact weaken (Or.inr h)
    · rcases h with h | h
      · exact weaken (Or.inl h)
      · rcases List.mem_cons.mp h with h | h
        · subst h
          exact skillHead_props r seen h1 h2
        · exact weaken (Or.inr h)

/-- The lowercase names across both partitions are pairwise distinct. -/
theorem partitionSkills_names_nodup (jd : List String) :
    ∀ (rows : List SkillRec) (seen : List String),
    (((partitionSkills jd rows seen).1 ++ (partitionSkills jd rows seen).2).map
      skillNameLower).Nodup := by
  intro rows
  induction rows with
  | nil => intro seen; simp [partitionSkills]
  | cons r0 rest ih =>
    intro seen
    simp only [partitionSkills]
    split_ifs with h1 h2 h3
    · exact ih seen
    · exact ih _
    · simp only [List.cons_append, List.map_cons, List.nodup_cons]
      refine ⟨?_, ih _⟩
      rw [List.mem_map]
      rintro ⟨r2, hr2, heq⟩
      have hp := partitionSkills_props jd rest (skillNameLower r0 :: seen) r2
        ((List.mem_append.mp hr2).imp id id)
      exact hp.2.1 (heq ▸ List.mem_cons_self _ _)
    · rw [List.map_append, List.map_cons, List.nodup_middle, ← List.map_append,
        List.nodup_cons]
      refine ⟨?_, ih _⟩
      rw [List.mem_map]
      rintro ⟨r2, hr2, heq⟩
      have hp := partitionSkills_props jd rest (skillNameLower r0 :: seen) r2
        ((List.mem_append.mp hr2).imp id id)
      exact hp.2.1 (heq ▸ List.mem_cons_self _ _)

/-- C8: the skill selection returns at most 25 entries; every selected
JD-matching skill precedes every selected non-matching one (the selection
is the matching block followed by the non-matching block); each block keeps
the pool fetch order (it is a sublist of the user's non-duplicate skill
rows); selected lowercase names are pairwise distinct; no selected skill is
tool-category or marked as a duplicate of another skill. -/
theorem c8_skill_selection :
    ∀ (jdTerms : List String) (skillTable : List SkillRec) (userId : Nat),
    (selectSkills jdTerms skillTable userId).length ≤ maxSkills ∧
    (selectSkillRows jdTerms skillTable userId).filter
        (fun r => skillMatches jdTerms (skillNameLower r)) ++
      (selectSkillRows jdTerms skillTable userId).filter
        (fun r => !(skillMatches jdTerms (skillNameLower r)))
      = selectSkillRows jdTerms skillTable userId ∧
    List.Sublist ((selectSkillRows jdTerms skillTable userId).filter
        (fun r => skillMatches jdTerms (skillNameLower r)))
      (skillTable.filter (fun s => s.isDuplicateOf.isNone && s.userId == userId)) ∧
    List.Sublist ((selectSkillRows jdTerms skillTable userId).filter
        (fun r => !(skillMatches jdTerms (skillNameLower r))))
      (skillTable.filter (fun s => s.isDuplicateOf.isNone && s.userId == userId)) ∧
    ((selectSkillRows jdTerms skillTable userId).map skillNameLower).Nodup ∧
    ((selectSkillRows jdTerms skillTable userId).all
        (fun r => !(strLower (r.category.getD "") == "tool"))) = true ∧
    ((selectSkillRows jdTerms skillTable userId).all
        (fun r => r.isDuplicateOf.isNone && r.userId == userId)) = true := by
  intro jdTerms skillTable userId
  have hsel : selectSkillRows jdTerms skillTable userId
      = (partitionSkills jdTerms
            (skillTable.filter (fun s => s.isDuplicateOf.isNone && s.userId == userId)) []).1.take maxSkills
        ++ (partitionSkills jdTerms
            (skillTable.filter (fun s => s.isDuplicateOf.isNone && s.userId == userId)) []).2.take
            (maxSkills - ((partitionSkills jdTerms
              (skillTable.filter (fun s => s.isDuplicateOf.isNone && s.userId == userId)) []).1.take
                maxSkills).length) := rfl
  set rows := skillTable.filter (fun s => s.isDuplicateOf.isNone && s.userId == userId) with hrows
  set mn := partitionSkills jdTerms rows [] with hmn
  set M := mn.1.take maxSkills with hM
  set N := mn.2.take (maxSkills - M.length) with hN
  have hallM : ∀ r ∈ M, skillMatches jdTerms (skillNameLower r) = true := by
    intro r hr
    exact partitionSkills_matched_sound jdTerms rows [] r (List.take_subset _ _ hr)
  have hallN : ∀ r ∈ N, skillMatches jdTerms (skillNameLower r) = false := by
    intro r hr
    exact partitionSkills_nonmatched_sound jdTerms rows [] r (List.take_subset _ _ hr)
  have hfilterM : (M ++ N).filter (fun r => skillMatches jdTerms (skillNameLower r)) = M := by
    rw [List.filter_append, List.filter_eq_self.mpr hallM,
      List.filter_eq_nil_iff.mpr (fun r hr => by simp [hallN r hr]), List.append_nil]
  have hfilterN : (M ++ N).filter (fun r => !(skillMatches jdTerms (skillNameLower r))) = N := by
    rw [List.filter_append, List.filter_eq_nil_iff.mpr (fun r hr => by simp [hallM r hr]),
      List.filter_eq_self.mpr (fun r hr => by simp [hallN r hr]), List.nil_append]
  have hsubM : List.Sublist M rows :=
    List.Sublist.trans (List.take_sublist _ _) (partitionSkills_sublist jdTerms rows []).1
  have hsubN : List.Sublist N rows :=
    List.Sublist.trans (List.take_sublist _ _) (partitionSkills_sublist jdTerms rows []).2
  have hmemMN : ∀ r ∈ M ++ N, r ∈ mn.1 ∨ r ∈ mn.2 := by
    intro r hr
    exact (List.mem_append.mp hr).imp (fun h => List.take_subset _ _ h)
      (fun h => List.take_subset _ _ h)
  refine ⟨?_, ?_, ?_, ?_, ?_, ?_, ?_⟩
  · rw [selectSkills, List.length_map, hsel]
    rw [List.length_append]
    have h1 : M.length ≤ maxSkills := by
      rw [hM, List.length_take]
      omega
    have h2 : N.length ≤ maxSkills - M.length := by
      rw [hN, List.length_take]
      omega
    omega
  · rw [hsel, hfilterM, hfilterN]
  · rw [hsel, hfilterM]
    exact hsubM
  · rw [hsel, hfilterN]
    exact hsubN
  · rw [hsel]
    refine List.Nodup.sublist ?_ (partitionSkills_names_nodup jdTerms rows [])
    exact List.Sublist.map skillNameLower
      (List.Sublist.append (List.take_sublist _ _) (List.take_sublist _ _))
  · rw [hsel, List.all_eq_true]
    intro r hr
    have hp := partitionSkills_props jdTerms rows [] r (hmemMN r hr)
    simp [hp.1]
  · rw [hsel, List.all_eq_true]
    intro r hr
    have hmem : r ∈ rows := by
      rcases List.mem_append.mp hr with h | h
      · exact hsubM.subset h
      · exact hsubN.subset h
    rw [hrows, List.mem_filter] at hmem
    exact hmem.2

end CvTailor
